import Mathlib

/-
Verification of the sampling core of pulse_system_info_speed.py.

The shallow embedding models numeric values (floats, timestamps, byte
counters) as rationals, and the OS-level reads performed inside a call
(time.time, psutil.cpu_percent, psutil.virtual_memory, psutil.net_io_counters)
as an explicit input record passed to each call.  A Python deque with
maxlen m is modelled as the list of its elements oldest-first; appending
keeps the last m elements.
-/

namespace Pulse

/-- MAX_HISTORY constant from the source (line 20). -/
def MAX_HISTORY : ℕ := 60

/-- The sent and received cumulative byte counters returned by
psutil.net_io_counters. -/
structure NetIOCounters where
  bytes_sent : ℚ
  bytes_recv : ℚ
deriving DecidableEq

/-- The values the OS hands to one sample() call: wall-clock time,
cpu percent, ram percent and the network counters. -/
structure OSReading where
  now : ℚ
  cpu : ℚ
  ram : ℚ
  net : NetIOCounters
deriving DecidableEq

/-- The dict returned by SystemData.sample (line 59). -/
structure Sample where
  cpu : ℚ
  ram : ℚ
  net_sent : ℚ
  net_recv : ℚ
deriving DecidableEq

/-- The mutable state of the SystemData class (lines 32-43). -/
structure SystemData where
  last_net : NetIOCounters
  last_time : ℚ
  cpu_hist : List ℚ
  ram_hist : List ℚ
  net_sent_hist : List ℚ
  net_recv_hist : List ℚ
deriving DecidableEq

/-- deque(maxlen=m).append x: the new element goes to the right and the
list keeps only its last m elements. -/
def dequeAppend (maxlen : ℕ) (xs : List ℚ) (x : ℚ) : List ℚ :=
  let ys := xs ++ [x]
  ys.drop (ys.length - maxlen)

/-- The init loop (lines 39-43): append 0.0 to a fresh deque k times. -/
def fillZeros : ℕ → List ℚ
  | 0 => []
  | k + 1 => dequeAppend MAX_HISTORY (fillZeros k) 0

/-- SystemData.__init__ (lines 32-43): seed last_net with one counter read,
last_time with the construction time, and pre-fill the four histories. -/
def SystemData.init (net0 : NetIOCounters) (t0 : ℚ) : SystemData where
  last_net := net0
  last_time := t0
  cpu_hist := fillZeros MAX_HISTORY
  ram_hist := fillZeros MAX_HISTORY
  net_sent_hist := fillZeros MAX_HISTORY
  net_recv_hist := fillZeros MAX_HISTORY

/-- SystemData.sample (lines 45-59), with the OS reads of that call passed
in as r.  Returns the updated state and the returned dict. -/
def SystemData.sample (s : SystemData) (r : OSReading) : SystemData × Sample :=
  let elapsed := if r.now - s.last_time > 0 then r.now - s.last_time else 1
  let sent_rate := (r.net.bytes_sent - s.last_net.bytes_sent) / elapsed
  let recv_rate := (r.net.bytes_recv - s.last_net.bytes_recv) / elapsed
  ({ last_net := r.net
     last_time := r.now
     cpu_hist := dequeAppend MAX_HISTORY s.cpu_hist r.cpu
     ram_hist := dequeAppend MAX_HISTORY s.ram_hist r.ram
     net_sent_hist := dequeAppend MAX_HISTORY s.net_sent_hist sent_rate
     net_recv_hist := dequeAppend MAX_HISTORY s.net_recv_hist recv_rate },
   { cpu := r.cpu, ram := r.ram, net_sent := sent_rate, net_recv := recv_rate })

/-- A sequence of sample() calls, fed one OS reading each; returns the
final state. -/
def runSamples (s : SystemData) : List OSReading → SystemData
  | [] => s
  | r :: rs => runSamples (s.sample r).1 rs

/-- The unit list of human_readable_bytes (line 24). -/
def hrbUnits : List String := ["B", "KB", "MB", "GB", "TB"]

/-- Default unit string, used only to give List.getD a total type; the loop
invariant keeps the index in range, so it is never actually produced. -/
def emptyUnit : String := ""

/-- The while loop of human_readable_bytes (lines 26-28): divide n by 1024
and advance the unit index while n is at least 1024 and a larger unit
exists. -/
def hrbLoop (n : ℚ) (i : ℕ) : ℚ × ℕ :=
  if 1024 ≤ n ∧ i < hrbUnits.length - 1 then hrbLoop (n / 1024) (i + 1) else (n, i)
termination_by hrbUnits.length - 1 - i
decreasing_by
  simp only [hrbUnits, List.length_cons, List.length_nil] at *
  omega

/-- Round a rational to the nearest integer, ties to even (the rounding used
by the Python float format specifier). -/
def roundHalfEven (q : ℚ) : ℤ :=
  let f := ⌊q⌋
  if q - f < 1 / 2 then f
  else if 1 / 2 < q - f then f + 1
  else if f % 2 = 0 then f else f + 1

/-- The format specifier .1f from line 29: the number rounded to one decimal
digit, rendered with exactly one digit after the point. -/
def fmtOneDecimal (q : ℚ) : String :=
  let r := roundHalfEven (q * 10)
  if r < 0 then "-" ++ toString ((-r) / 10) ++ "." ++ toString ((-r) % 10)
  else toString (r / 10) ++ "." ++ toString (r % 10)

/-- human_readable_bytes (lines 22-29). -/
def human_readable_bytes (n : ℚ) : String :=
  let p := hrbLoop n 0
  fmtOneDecimal p.1 ++ " " ++ hrbUnits.getD p.2 emptyUnit

/-! Helper lemmas about the embedded operations. -/

set_option maxRecDepth 8000

theorem fillZeros_max : fillZeros MAX_HISTORY = List.replicate MAX_HISTORY 0 := by rfl

theorem dequeAppend_length (xs : List ℚ) (x : ℚ) (h : xs.length = MAX_HISTORY) :
    (dequeAppend MAX_HISTORY xs x).length = MAX_HISTORY := by
  simp [dequeAppend, h, MAX_HISTORY]

theorem dequeAppend_eq_drop_one (xs : List ℚ) (x : ℚ) (h : xs.length = MAX_HISTORY) :
    dequeAppend MAX_HISTORY xs x = (xs ++ [x]).drop 1 := by
  simp [dequeAppend, h, MAX_HISTORY]

theorem sampleElapsed_pos (s : SystemData) (r : OSReading) :
    (0 : ℚ) < if r.now - s.last_time > 0 then r.now - s.last_time else 1 := by
  split
  · assumption
  · norm_num

theorem sample_fst_cpu_hist (s : SystemData) (r : OSReading) :
    (s.sample r).1.cpu_hist = dequeAppend MAX_HISTORY s.cpu_hist r.cpu := rfl

theorem sample_fst_ram_hist (s : SystemData) (r : OSReading) :
    (s.sample r).1.ram_hist = dequeAppend MAX_HISTORY s.ram_hist r.ram := rfl

theorem sample_fst_net_sent_hist (s : SystemData) (r : OSReading) :
    (s.sample r).1.net_sent_hist =
      dequeAppend MAX_HISTORY s.net_sent_hist ((s.sample r).2.net_sent) := rfl

theorem sample_fst_net_recv_hist (s : SystemData) (r : OSReading) :
    (s.sample r).1.net_recv_hist =
      dequeAppend MAX_HISTORY s.net_recv_hist ((s.sample r).2.net_recv) := rfl

theorem sample_snd_net_sent (s : SystemData) (r : OSReading) :
    (s.sample r).2.net_sent =
      (r.net.bytes_sent - s.last_net.bytes_sent) /
        (if r.now - s.last_time > 0 then r.now - s.last_time else 1) := rfl

theorem sample_snd_net_recv (s : SystemData) (r : OSReading) :
    (s.sample r).2.net_recv =
      (r.net.bytes_recv - s.last_net.bytes_recv) /
        (if r.now - s.last_time > 0 then r.now - s.last_time else 1) := rfl

theorem runSamples_nil (s : SystemData) : runSamples s [] = s := rfl

theorem runSamples_cons (s : SystemData) (r : OSReading) (rs : List OSReading) :
    runSamples s (r :: rs) = runSamples (s.sample r).1 rs := rfl

theorem runSamples_lengths (rs : List OSReading) (s : SystemData)
    (h1 : s.cpu_hist.length = MAX_HISTORY) (h2 : s.ram_hist.length = MAX_HISTORY)
    (h3 : s.net_sent_hist.length = MAX_HISTORY) (h4 : s.net_recv_hist.length = MAX_HISTORY) :
    (runSamples s rs).cpu_hist.length = MAX_HISTORY ∧
    (runSamples s rs).ram_hist.length = MAX_HISTORY ∧
    (runSamples s rs).net_sent_hist.length = MAX_HISTORY ∧
    (runSamples s rs).net_recv_hist.length = MAX_HISTORY := by
  induction rs generalizing s with
  | nil => exact ⟨h1, h2, h3, h4⟩
  | cons r rs ih =>
      rw [runSamples_cons]
      exact ih _ (dequeAppend_length _ _ h1) (dequeAppend_length _ _ h2)
        (dequeAppend_length _ _ h3) (dequeAppend_length _ _ h4)

theorem runSamples_cpu_hist (rs : List OSReading) (s : SystemData)
    (h : s.cpu_hist.length = MAX_HISTORY) :
    (runSamples s rs).cpu_hist =
      (s.cpu_hist ++ rs.map OSReading.cpu).drop rs.length := by
  induction rs generalizing s with
  | nil => simp [runSamples_nil]
  | cons r rs ih =>
      rw [runSamples_cons]
      have hlen : ((s.sample r).1).cpu_hist.length = MAX_HISTORY := by
        rw [sample_fst_cpu_hist]; exact dequeAppend_length _ _ h
      rw [ih _ hlen, sample_fst_cpu_hist, dequeAppend_eq_drop_one _ _ h]
      have h1 : (1 : ℕ) ≤ (s.cpu_hist ++ [r.cpu]).length := by
        simp
      rw [← List.drop_append_of_le_length h1, List.drop_drop]
      simp [List.append_assoc, Nat.add_comm]

theorem dequeAppend_getLast? (xs : List ℚ) (x : ℚ) (h : 0 < MAX_HISTORY) :
    (dequeAppend MAX_HISTORY xs x).getLast? = some x := by
  unfold dequeAppend
  have hle : (xs ++ [x]).length - MAX_HISTORY ≤ xs.length := by
    simp only [List.length_append, List.length_singleton]
    omega
  rw [List.drop_append_of_le_length hle]
  simp

theorem head?_drop_one (l : List ℚ) : (l.drop 1).head? = l.get? 1 := by
  cases l with
  | nil => rfl
  | cons a t => cases t <;> rfl

theorem hrbLoop_index_le (n : ℚ) (i : ℕ) (h : i ≤ hrbUnits.length - 1) :
    (hrbLoop n i).2 ≤ hrbUnits.length - 1 := by
  rw [hrbLoop]
  split
  · next hc => exact hrbLoop_index_le (n / 1024) (i + 1) (by omega)
  · simpa using h
termination_by hrbUnits.length - 1 - i
decreasing_by
  simp only [hrbUnits, List.length_cons, List.length_nil] at *
  omega

theorem hrbLoop_low (n : ℚ) (h : n < 1024) : hrbLoop n 0 = (n, 0) := by
  rw [hrbLoop, if_neg]
  intro hc
  linarith [hc.1]

theorem hrbUnits_getD_mem (j : ℕ) (hj : j < hrbUnits.length) :
    hrbUnits.getD j emptyUnit ∈ hrbUnits := by
  revert hj
  revert j
  decide

/-! Claim theorems. -/

/-- C1, counterexample: the code does not clamp a negative byte delta.  With a
stored snapshot of 1000 sent and 1000 received bytes, a reading one second
later in which both cumulative counters regressed to 0 makes sample() return
strictly negative rates, refuting the claim that the rates are always
non-negative. -/
theorem sample_rate_negative_on_counter_regression :
    ((SystemData.init ⟨1000, 1000⟩ 0).sample ⟨1, 0, 0, ⟨0, 0⟩⟩).2.net_sent < 0 ∧
    ((SystemData.init ⟨1000, 1000⟩ 0).sample ⟨1, 0, 0, ⟨0, 0⟩⟩).2.net_recv < 0 := by
  constructor <;> norm_num [SystemData.sample, SystemData.init]

/-- C1, amended: when the cumulative counters do not regress between the stored
snapshot and the current reading, both returned rates are non-negative; the
divisor (elapsed, clamped to 1 when non-positive) is always positive. -/
theorem sample_rates_nonneg_of_monotone_counters (s : SystemData) (r : OSReading)
    (hs : s.last_net.bytes_sent ≤ r.net.bytes_sent)
    (hr : s.last_net.bytes_recv ≤ r.net.bytes_recv) :
    0 ≤ (s.sample r).2.net_sent ∧ 0 ≤ (s.sample r).2.net_recv := by
  constructor
  · rw [sample_snd_net_sent]
    exact div_nonneg (sub_nonneg.2 hs) (le_of_lt (sampleElapsed_pos s r))
  · rw [sample_snd_net_recv]
    exact div_nonneg (sub_nonneg.2 hr) (le_of_lt (sampleElapsed_pos s r))

theorem sample_rates_nonneg_of_monotone_counters_witness :
    0 ≤ ((SystemData.init ⟨0, 0⟩ 0).sample ⟨1, 0, 0, ⟨5, 7⟩⟩).2.net_sent ∧
    0 ≤ ((SystemData.init ⟨0, 0⟩ 0).sample ⟨1, 0, 0, ⟨5, 7⟩⟩).2.net_recv :=
  sample_rates_nonneg_of_monotone_counters _ _
    (by norm_num [SystemData.init]) (by norm_num [SystemData.init])

/-- C2, counterexample: with identical timestamps (now = last_time = 0) and a
regressed sent counter, sample() does divide safely (elapsed clamped to 1) but
returns a strictly negative rate, refuting the non-negativity part of the
claim. -/
theorem sample_zero_elapsed_negative_on_regression :
    ((SystemData.init ⟨1000, 0⟩ 0).sample ⟨0, 0, 0, ⟨0, 0⟩⟩).2.net_sent < 0 := by
  norm_num [SystemData.sample, SystemData.init]

/-- C2, amended: when the current timestamp is not later than the stored one
(elapsed ≤ 0), sample() does not divide by zero: elapsed is clamped to 1 and
each returned rate equals the raw byte delta between the two counter
readings (hence finite; non-negative exactly when the counter did not
regress). -/
theorem sample_zero_elapsed_rate_eq_delta (s : SystemData) (r : OSReading)
    (h : r.now ≤ s.last_time) :
    (s.sample r).2.net_sent = r.net.bytes_sent - s.last_net.bytes_sent ∧
    (s.sample r).2.net_recv = r.net.bytes_recv - s.last_net.bytes_recv := by
  have hc : ¬(r.now - s.last_time > 0) := by
    simp only [not_lt]
    linarith
  constructor
  · rw [sample_snd_net_sent, if_neg hc, div_one]
  · rw [sample_snd_net_recv, if_neg hc, div_one]

theorem sample_zero_elapsed_rate_eq_delta_witness :
    ((SystemData.init ⟨3, 4⟩ 5).sample ⟨5, 0, 0, ⟨10, 20⟩⟩).2.net_sent =
      (⟨5, 0, 0, ⟨10, 20⟩⟩ : OSReading).net.bytes_sent -
        (SystemData.init ⟨3, 4⟩ 5).last_net.bytes_sent ∧
    ((SystemData.init ⟨3, 4⟩ 5).sample ⟨5, 0, 0, ⟨10, 20⟩⟩).2.net_recv =
      (⟨5, 0, 0, ⟨10, 20⟩⟩ : OSReading).net.bytes_recv -
        (SystemData.init ⟨3, 4⟩ 5).last_net.bytes_recv :=
  sample_zero_elapsed_rate_eq_delta _ _ (by norm_num [SystemData.init])

/-- C4: if the stored snapshot has 1000 sent bytes at time 0 and the reading
has 3000 sent bytes at time 2, sample() reports a sent rate of 1000 (2000
bytes over 2 seconds). -/
theorem sample_rate_two_seconds (s : SystemData) (r : OSReading)
    (h1 : s.last_net.bytes_sent = 1000) (h2 : s.last_time = 0)
    (h3 : r.now = 2) (h4 : r.net.bytes_sent = 3000) :
    (s.sample r).2.net_sent = 1000 := by
  rw [sample_snd_net_sent, h1, h2, h3, h4]
  rw [if_pos (by norm_num : (2 : ℚ) - 0 > 0)]
  norm_num

theorem sample_rate_two_seconds_witness :
    ((SystemData.init ⟨1000, 0⟩ 0).sample ⟨2, 0, 0, ⟨3000, 0⟩⟩).2.net_sent = 1000 :=
  sample_rate_two_seconds _ _ (by norm_num [SystemData.init])
    (by norm_num [SystemData.init]) (by norm_num) (by norm_num)

/-- C8: sample() passes the cpu and ram percentages through unmodified, so if
the OS source reports values in the interval from 0 to 100, the returned
cpu and ram fields stay in that interval. -/
theorem sample_percent_passthrough_bounds (s : SystemData) (r : OSReading)
    (hc0 : 0 ≤ r.cpu) (hc1 : r.cpu ≤ 100) (hr0 : 0 ≤ r.ram) (hr1 : r.ram ≤ 100) :
    0 ≤ (s.sample r).2.cpu ∧ (s.sample r).2.cpu ≤ 100 ∧
    0 ≤ (s.sample r).2.ram ∧ (s.sample r).2.ram ≤ 100 :=
  ⟨hc0, hc1, hr0, hr1⟩

theorem sample_percent_passthrough_bounds_witness :
    0 ≤ ((SystemData.init ⟨0, 0⟩ 0).sample ⟨1, 25, 40, ⟨0, 0⟩⟩).2.cpu ∧
    ((SystemData.init ⟨0, 0⟩ 0).sample ⟨1, 25, 40, ⟨0, 0⟩⟩).2.cpu ≤ 100 ∧
    0 ≤ ((SystemData.init ⟨0, 0⟩ 0).sample ⟨1, 25, 40, ⟨0, 0⟩⟩).2.ram ∧
    ((SystemData.init ⟨0, 0⟩ 0).sample ⟨1, 25, 40, ⟨0, 0⟩⟩).2.ram ≤ 100 :=
  sample_percent_passthrough_bounds _ _
    (show (0 : ℚ) ≤ 25 by norm_num) (show (25 : ℚ) ≤ 100 by norm_num)
    (show (0 : ℚ) ≤ 40 by norm_num) (show (40 : ℚ) ≤ 100 by norm_num)

/-- C9: after any sample() call, the returned record agrees with the histories:
each of its four fields equals the last element of the corresponding history
buffer. -/
theorem sample_returns_last_history_elements (s : SystemData) (r : OSReading) :
    (s.sample r).1.cpu_hist.getLast? = some ((s.sample r).2.cpu) ∧
    (s.sample r).1.ram_hist.getLast? = some ((s.sample r).2.ram) ∧
    (s.sample r).1.net_sent_hist.getLast? = some ((s.sample r).2.net_sent) ∧
    (s.sample r).1.net_recv_hist.getLast? = some ((s.sample r).2.net_recv) :=
  ⟨dequeAppend_getLast? _ _ (by norm_num [MAX_HISTORY]),
   dequeAppend_getLast? _ _ (by norm_num [MAX_HISTORY]),
   dequeAppend_getLast? _ _ (by norm_num [MAX_HISTORY]),
   dequeAppend_getLast? _ _ (by norm_num [MAX_HISTORY])⟩

/-- C3: after any sequence of sample() calls on a freshly constructed
SystemData, including the empty sequence, each of the four history buffers
has length exactly 60. -/
theorem histories_length_always_sixty (net0 : NetIOCounters) (t0 : ℚ)
    (rs : List OSReading) :
    (runSamples (SystemData.init net0 t0) rs).cpu_hist.length = 60 ∧
    (runSamples (SystemData.init net0 t0) rs).ram_hist.length = 60 ∧
    (runSamples (SystemData.init net0 t0) rs).net_sent_hist.length = 60 ∧
    (runSamples (SystemData.init net0 t0) rs).net_recv_hist.length = 60 := by
  have h : (fillZeros MAX_HISTORY).length = MAX_HISTORY := by
    rw [fillZeros_max]; simp
  exact runSamples_lengths rs _ h h h h

/-- C7: constructing SystemData and calling sample() zero times yields four
histories equal to sixty copies of the fill value 0, and stores the seed
counter reading and the construction time in the snapshot. -/
theorem init_prefills_histories (net0 : NetIOCounters) (t0 : ℚ) :
    (SystemData.init net0 t0).cpu_hist = List.replicate 60 0 ∧
    (SystemData.init net0 t0).ram_hist = List.replicate 60 0 ∧
    (SystemData.init net0 t0).net_sent_hist = List.replicate 60 0 ∧
    (SystemData.init net0 t0).net_recv_hist = List.replicate 60 0 ∧
    (SystemData.init net0 t0).last_net = net0 ∧
    (SystemData.init net0 t0).last_time = t0 :=
  ⟨fillZeros_max, fillZeros_max, fillZeros_max, fillZeros_max, rfl, rfl⟩

/-- C6: after 61 sample() calls the cpu history is exactly the last 60 of the
61 recorded cpu values: its first element is the value recorded on the 2nd
call, and the value recorded on the 1st call is gone (whenever it differs
from all later recorded values). -/
theorem cpu_hist_eviction_after_sixty_one (net0 : NetIOCounters) (t0 : ℚ)
    (rs : List OSReading) (h : rs.length = 61) :
    (runSamples (SystemData.init net0 t0) rs).cpu_hist = (rs.map OSReading.cpu).drop 1 ∧
    (runSamples (SystemData.init net0 t0) rs).cpu_hist.head? = (rs.map OSReading.cpu).get? 1 ∧
    (∀ c0, (rs.map OSReading.cpu).head? = some c0 →
      (∀ r ∈ rs.tail, OSReading.cpu r ≠ c0) →
      c0 ∉ (runSamples (SystemData.init net0 t0) rs).cpu_hist) := by
  have hinit : (SystemData.init net0 t0).cpu_hist.length = MAX_HISTORY := by
    show (fillZeros MAX_HISTORY).length = MAX_HISTORY
    rw [fillZeros_max]; simp
  have hmain := runSamples_cpu_hist rs _ hinit
  have hrep : (SystemData.init net0 t0).cpu_hist = List.replicate 60 (0 : ℚ) := fillZeros_max
  rw [hrep, h] at hmain
  have heq : (List.replicate 60 (0 : ℚ) ++ rs.map OSReading.cpu).drop 61 =
      (rs.map OSReading.cpu).drop 1 := by
    rw [List.drop_append_eq_append_drop]
    rw [List.drop_eq_nil_of_le (by simp)]
    simp
  rw [heq] at hmain
  refine ⟨hmain, ?_, ?_⟩
  · rw [hmain]
    exact head?_drop_one _
  · intro c0 hc0 hne hmem
    rw [hmain, ← List.map_drop, List.drop_one] at hmem
    obtain ⟨a, ha, hac⟩ := List.mem_map.1 hmem
    exact hne a ha hac

theorem repl_concat_facts (v : ℚ) :
    (List.replicate 59 (0 : ℚ) ++ [v]).length = 60 ∧
    (List.replicate 59 (0 : ℚ) ++ [v]).getLast? = some v ∧
    (List.replicate 59 (0 : ℚ) ++ [v]).take 59 = List.replicate 59 0 := by
  refine ⟨by simp, by simp, ?_⟩
  rw [List.take_append_of_le_length (by simp)]
  simp

theorem initHist_dequeAppend (x : ℚ) :
    dequeAppend MAX_HISTORY (fillZeros MAX_HISTORY) x = List.replicate 59 0 ++ [x] := by
  rw [dequeAppend_eq_drop_one _ _ (by rw [fillZeros_max]; simp), fillZeros_max]
  rw [show List.replicate MAX_HISTORY (0 : ℚ) = 0 :: List.replicate 59 0 from rfl]
  simp

/-- C5: end-to-end scenario: construct SystemData at time 0 with counters
(sent 0, recv 0); one sample() call at time 1 with the OS reporting cpu 25,
ram 40 and counters (sent 2048, recv 1024) returns the record
(25, 40, 2048, 1024), and each history has length 60 with its last element
equal to the sampled value and its first 59 elements equal to 0. -/
theorem sample_end_to_end_scenario :
    ((SystemData.init ⟨0, 0⟩ 0).sample ⟨1, 25, 40, ⟨2048, 1024⟩⟩).2 = ⟨25, 40, 2048, 1024⟩ ∧
    (((SystemData.init ⟨0, 0⟩ 0).sample ⟨1, 25, 40, ⟨2048, 1024⟩⟩).1.cpu_hist.length = 60 ∧
      ((SystemData.init ⟨0, 0⟩ 0).sample ⟨1, 25, 40, ⟨2048, 1024⟩⟩).1.cpu_hist.getLast? =
        some 25 ∧
      ((SystemData.init ⟨0, 0⟩ 0).sample ⟨1, 25, 40, ⟨2048, 1024⟩⟩).1.cpu_hist.take 59 =
        List.replicate 59 0) ∧
    (((SystemData.init ⟨0, 0⟩ 0).sample ⟨1, 25, 40, ⟨2048, 1024⟩⟩).1.ram_hist.length = 60 ∧
      ((SystemData.init ⟨0, 0⟩ 0).sample ⟨1, 25, 40, ⟨2048, 1024⟩⟩).1.ram_hist.getLast? =
        some 40 ∧
      ((SystemData.init ⟨0, 0⟩ 0).sample ⟨1, 25, 40, ⟨2048, 1024⟩⟩).1.ram_hist.take 59 =
        List.replicate 59 0) ∧
    (((SystemData.init ⟨0, 0⟩ 0).sample ⟨1, 25, 40, ⟨2048, 1024⟩⟩).1.net_sent_hist.length = 60 ∧
      ((SystemData.init ⟨0, 0⟩ 0).sample ⟨1, 25, 40, ⟨2048, 1024⟩⟩).1.net_sent_hist.getLast? =
        some 2048 ∧
      ((SystemData.init ⟨0, 0⟩ 0).sample ⟨1, 25, 40, ⟨2048, 1024⟩⟩).1.net_sent_hist.take 59 =
        List.replicate 59 0) ∧
    (((SystemData.init ⟨0, 0⟩ 0).sample ⟨1, 25, 40, ⟨2048, 1024⟩⟩).1.net_recv_hist.length = 60 ∧
      ((SystemData.init ⟨0, 0⟩ 0).sample ⟨1, 25, 40, ⟨2048, 1024⟩⟩).1.net_recv_hist.getLast? =
        some 1024 ∧
      ((SystemData.init ⟨0, 0⟩ 0).sample ⟨1, 25, 40, ⟨2048, 1024⟩⟩).1.net_recv_hist.take 59 =
        List.replicate 59 0) := by
  have hcpu : ((SystemData.init ⟨0, 0⟩ 0).sample ⟨1, 25, 40, ⟨2048, 1024⟩⟩).1.cpu_hist =
      List.replicate 59 0 ++ [25] := by
    rw [sample_fst_cpu_hist]; exact initHist_dequeAppend 25
  have hram : ((SystemData.init ⟨0, 0⟩ 0).sample ⟨1, 25, 40, ⟨2048, 1024⟩⟩).1.ram_hist =
      List.replicate 59 0 ++ [40] := by
    rw [sample_fst_ram_hist]; exact initHist_dequeAppend 40
  have hrs : ((SystemData.init ⟨0, 0⟩ 0).sample ⟨1, 25, 40, ⟨2048, 1024⟩⟩).2.net_sent = 2048 := by
    norm_num [SystemData.sample, SystemData.init]
  have hrr : ((SystemData.init ⟨0, 0⟩ 0).sample ⟨1, 25, 40, ⟨2048, 1024⟩⟩).2.net_recv = 1024 := by
    norm_num [SystemData.sample, SystemData.init]
  have hsent : ((SystemData.init ⟨0, 0⟩ 0).sample ⟨1, 25, 40, ⟨2048, 1024⟩⟩).1.net_sent_hist =
      List.replicate 59 0 ++ [2048] := by
    rw [sample_fst_net_sent_hist, hrs]; exact initHist_dequeAppend 2048
  have hrecv : ((SystemData.init ⟨0, 0⟩ 0).sample ⟨1, 25, 40, ⟨2048, 1024⟩⟩).1.net_recv_hist =
      List.replicate 59 0 ++ [1024] := by
    rw [sample_fst_net_recv_hist, hrr]; exact initHist_dequeAppend 1024
  refine ⟨by norm_num [SystemData.sample, SystemData.init], ?_, ?_, ?_, ?_⟩
  · rw [hcpu]; exact repl_concat_facts 25
  · rw [hram]; exact repl_concat_facts 40
  · rw [hsent]; exact repl_concat_facts 2048
  · rw [hrecv]; exact repl_concat_facts 1024

theorem cpu_hist_eviction_after_sixty_one_witness :
    (List.replicate 61 (⟨0, 0, 0, ⟨0, 0⟩⟩ : OSReading)).length = 61 ∧
    (runSamples (SystemData.init ⟨0, 0⟩ 0)
        (List.replicate 61 ⟨0, 0, 0, ⟨0, 0⟩⟩)).cpu_hist =
      ((List.replicate 61 (⟨0, 0, 0, ⟨0, 0⟩⟩ : OSReading)).map OSReading.cpu).drop 1 :=
  ⟨by simp, (cpu_hist_eviction_after_sixty_one _ _ _ (by simp)).1⟩

/-- C10: for every non-negative input, human_readable_bytes is total: the
loop advances the unit index by one per iteration and stops before the index
leaves the unit table, so the chosen unit is one of B, KB, MB, GB, TB; for
inputs below 1024 the loop body never runs and the result is the input
formatted to one decimal place followed by the unit B. -/
theorem human_readable_bytes_spec (n : ℚ) (h : 0 ≤ n) :
    (hrbLoop n 0).2 < hrbUnits.length ∧
    hrbUnits.getD (hrbLoop n 0).2 emptyUnit ∈ hrbUnits ∧
    (n < 1024 → human_readable_bytes n = fmtOneDecimal n ++ " B") := by
  have hle : (hrbLoop n 0).2 ≤ hrbUnits.length - 1 :=
    hrbLoop_index_le n 0 (by simp [hrbUnits])
  have hlt : (hrbLoop n 0).2 < hrbUnits.length := by
    simp only [hrbUnits, List.length_cons, List.length_nil] at hle ⊢
    omega
  refine ⟨hlt, hrbUnits_getD_mem _ hlt, ?_⟩
  intro h1024
  simp only [human_readable_bytes, hrbLoop_low n h1024]
  rw [show hrbUnits.getD (0 : ℕ) emptyUnit = "B" from rfl, String.append_assoc]
  rfl

theorem human_readable_bytes_spec_witness :
    (0 : ℚ) ≤ 512 ∧ (hrbLoop 512 0).2 < hrbUnits.length :=
  ⟨by norm_num, (human_readable_bytes_spec 512 (by norm_num)).1⟩

end Pulse
